import Mathlib

/-!
Verification development for `pytorchvideo/data/encoded_video.py`.

The file shallowly embeds the two units of that module:

* `select_video_class` — the string-token → backend-class dispatch;
* `EncodedVideo.from_path` — the loader: read the file bytes, optionally
  compute a short-side-scaled width/height, then construct the selected
  backend class.

External collaborators (the `g_pathmgr` byte reader and the `cv2` dimension
probe) are supplied through an explicit environment, and the I/O actions the
loader performs are recorded, in order, in an event trace, so that claims
about *when* I/O happens relative to errors can be stated.
-/

/-- Python values as far as this module inspects them: `None`, booleans,
numbers (Python ints and floats, modelled exactly as rationals) and strings. -/
inductive PyVal where
  | pyNone : PyVal
  | pyBool : Bool → PyVal
  | num : ℚ → PyVal
  | str : List Char → PyVal
  deriving DecidableEq

/-- Python truthiness for the values above (`if short_side_scale:`). -/
def PyVal.truthy : PyVal → Prop
  | .pyNone => False
  | .pyBool b => b = true
  | .num q => q ≠ 0
  | .str s => s ≠ []

instance (v : PyVal) : Decidable v.truthy := by
  cases v <;> unfold PyVal.truthy <;> infer_instance

/-- Lookup of a key in a keyword-argument dict, modelled as an association
list in insertion order (first occurrence wins, as dict keys are unique). -/
def dget : List (String × PyVal) → String → Option PyVal
  | [], _ => Option.none
  | (k, v) :: rest, key => if k = key then some v else dget rest key

/-- `d.pop(key, None)`'s effect on the dict: every binding of `key` removed,
the other bindings kept in order. -/
def derase : List (String × PyVal) → String → List (String × PyVal)
  | [], _ => []
  | (k, v) :: rest, key =>
    if k = key then derase rest key else (k, v) :: derase rest key

/-- Replace every binding of `key` by `(key, v)` in place. -/
def dreplace : List (String × PyVal) → String → PyVal → List (String × PyVal)
  | [], _, _ => []
  | (k, v') :: rest, key, v =>
    if k = key then (key, v) :: dreplace rest key v
    else (k, v') :: dreplace rest key v

/-- `d[key] = v`: overwrite in place when the key is present, append otherwise
(Python dicts keep insertion order on update). -/
def dset (d : List (String × PyVal)) (key : String) (v : PyVal) :
    List (String × PyVal) :=
  if (dget d key).isSome then dreplace d key v else d ++ [(key, v)]

/-- Python's `int()` on an exact number: truncation toward zero. -/
def pyInt (q : ℚ) : ℤ :=
  Int.sign q.num * (q.num.natAbs / q.den : ℕ)

/-- Modelled from the spec: `pytorchvideo/data/decoder.py` is not among the
provided sources. The spec fixes the enumerated decoder-token set as
`{pyav, torchvision, decord}`; Python's `Enum` value lookup
`DecoderType(decoder)` yields the member for a valid token and raises
`ValueError` for any other token. -/
inductive DecoderType where
  | PYAV : DecoderType
  | TORCHVISION : DecoderType
  | DECORD : DecoderType
  deriving DecidableEq

/-- The three backend classes `select_video_class` can return. -/
inductive VideoClass where
  | EncodedVideoPyAV : VideoClass
  | EncodedVideoTorchVision : VideoClass
  | EncodedVideoDecord : VideoClass
  deriving DecidableEq

/-- The errors this module can raise, distinguished by kind and message
payload: the `ValueError` from the enum conversion of an unknown decoder
token, the `ValueError` for an invalid video source, the
`NotImplementedError` of `select_video_class`'s final branch, and the
`TypeError` Python arithmetic raises on a non-numeric scale. -/
inductive PyError where
  | valueErrorDecoder : String → PyError
  | valueErrorInvalidVideo : String → PyError
  | notImplementedErr : String → PyError
  | typeErr : PyError
  deriving DecidableEq

/-- Modelled from the spec (see `DecoderType`): the enum value lookup
`DecoderType(decoder)`. -/
def DecoderType.ofString (s : String) : Except PyError DecoderType :=
  if s = "pyav" then Except.ok DecoderType.PYAV
  else if s = "torchvision" then Except.ok DecoderType.TORCHVISION
  else if s = "decord" then Except.ok DecoderType.DECORD
  else Except.error (PyError.valueErrorDecoder s)

/-- Embedding of `select_video_class`: convert the token with
`DecoderType(decoder)` (whose `ValueError` propagates), then dispatch on the
member; an unmatched member falls through to `raise NotImplementedError`.
The source converts the token again in each `elif`, but the conversion is
pure, so converting once is equivalent. -/
def select_video_class (decoder : String) : Except PyError VideoClass :=
  match DecoderType.ofString decoder with
  | Except.error e => Except.error e
  | Except.ok t =>
    if t = DecoderType.PYAV then Except.ok VideoClass.EncodedVideoPyAV
    else if t = DecoderType.TORCHVISION then
      Except.ok VideoClass.EncodedVideoTorchVision
    else if t = DecoderType.DECORD then Except.ok VideoClass.EncodedVideoDecord
    else Except.error (PyError.notImplementedErr decoder)

/-- One chunk-split of a character list at `/`, exactly as Python's
`"…".split("/")`: `splitSlash "a/b/" = ["a", "b", ""]`. -/
def splitSlash : List Char → List (List Char)
  | [] => [[]]
  | c :: cs =>
    match splitSlash cs with
    | [] => [[c]]
    | s :: rest => if c = '/' then [] :: s :: rest else (c :: s) :: rest

/-- The components `pathlib.PurePosixPath` keeps: the `/`-separated chunks
with empty chunks and `.` chunks discarded (pathlib collapses `//` and `./`). -/
def pathSegs (s : List Char) : List (List Char) :=
  (splitSlash s).filter (fun seg => decide (seg ≠ [] ∧ seg ≠ ['.']))

/-- Embedding of `pathlib.Path(file_path).name`: the last kept component, or
empty when none remains (root, empty or dot-only paths). -/
def pathName (s : String) : List Char :=
  ((pathSegs s.toList).getLast?).getD []

/-- Spec-side reading of "the final path segment of the input path with all
directory components stripped": everything after the last `/` (the whole
path when it has no `/`). Stated from the spec's words, to be compared with
`pathName`, which is the embedding of what the source computes. -/
def specFinalSegment (s : String) : List Char :=
  ((splitSlash s.toList).getLast?).getD []

/-- The I/O actions `from_path` can perform, in order: the `g_pathmgr` byte
read and the `cv2.VideoCapture` dimension probe. -/
inductive IOEvent where
  | readFile : String → IOEvent
  | probeDims : String → IOEvent
  deriving DecidableEq

/-- What the `cv2` probe reports for the source: `CAP_PROP_FRAME_WIDTH` and
`CAP_PROP_FRAME_HEIGHT`, as numbers. -/
structure ProbeResult where
  width : ℚ
  height : ℚ
  deriving DecidableEq

/-- The environment a `from_path` call runs against: the byte buffer the
`g_pathmgr` read returns (abstracted to an identifier, since the module never
inspects it) and the probed dimensions. -/
structure LoadEnv where
  fileBytes : ℕ
  probe : ProbeResult
  deriving DecidableEq

/-- The constructed backend instance: which class was selected and the five
arguments its constructor received. -/
structure Constructed where
  videoCls : VideoClass
  file : ℕ
  videoName : List Char
  decodeVideo : Bool
  decodeAudio : Bool
  args : List (String × PyVal)
  deriving DecidableEq

/-- Embedding of `EncodedVideo.from_path`. Mirrors the source line by line:
read the bytes; pop `short_side_scale`; when it is truthy, probe the
dimensions, reject a zero dimension, compute the scaled pair and store it
under `width`/`height`; finally select the backend class and construct it.
Returns the trace of I/O actions performed together with the outcome. -/
def from_path (file_path : String) (decode_video decode_audio : Bool)
    (decoder : String) (other_args : List (String × PyVal)) (env : LoadEnv) :
    List IOEvent × Except PyError Constructed :=
  -- with g_pathmgr.open(file_path, "rb") as fh: video_file = io.BytesIO(fh.read())
  let video_file := env.fileBytes
  -- short_side_scale = other_args.pop("short_side_scale", None)
  let short_side_scale := (dget other_args "short_side_scale").getD PyVal.pyNone
  let args1 := derase other_args "short_side_scale"
  if short_side_scale.truthy then
    -- width/height = cv2.VideoCapture(file_path).get(...)
    let width := env.probe.width
    let height := env.probe.height
    if width = 0 ∨ height = 0 then
      ([IOEvent.readFile file_path, IOEvent.probeDims file_path],
       Except.error (PyError.valueErrorInvalidVideo file_path))
    else
      match short_side_scale with
      | PyVal.num s =>
        let wh := if width < height then (s, s * height / width)
                  else (s * width / height, s)
        let args2 := dset (dset args1 "width" (PyVal.num (pyInt wh.1)))
                       "height" (PyVal.num (pyInt wh.2))
        ([IOEvent.readFile file_path, IOEvent.probeDims file_path],
         Except.map (fun video_cls =>
             { videoCls := video_cls, file := video_file,
               videoName := pathName file_path, decodeVideo := decode_video,
               decodeAudio := decode_audio, args := args2 })
           (select_video_class decoder))
      | _ =>
        -- a truthy non-numeric scale fails in the arithmetic `s * height / width`
        ([IOEvent.readFile file_path, IOEvent.probeDims file_path],
         Except.error PyError.typeErr)
  else
    ([IOEvent.readFile file_path],
     Except.map (fun video_cls =>
         { videoCls := video_cls, file := video_file,
           videoName := pathName file_path, decodeVideo := decode_video,
           decodeAudio := decode_audio, args := args1 })
       (select_video_class decoder))


/-! ### Helper lemmas about the embedded primitives -/

theorem pyInt_of_nonneg (q : ℚ) (h : 0 ≤ q) : pyInt q = ⌊q⌋ := by
  rcases lt_or_eq_of_le h with hlt | heq
  · have hnum : 0 < q.num := Rat.num_pos.mpr hlt
    rw [pyInt, Int.sign_eq_one_of_pos hnum, one_mul, Rat.floor_def,
      Int.natCast_div, Int.natAbs_of_nonneg hnum.le]
  · rw [← heq]
    simp [pyInt]

theorem pyInt_intCast (n : ℤ) : pyInt (n : ℚ) = n := by
  rw [pyInt, Rat.num_intCast, Rat.den_intCast, Nat.div_one, Int.sign_mul_natAbs]

theorem pyInt_natCast (n : ℕ) : pyInt (n : ℚ) = n := by
  have h : ((n : ℤ) : ℚ) = (n : ℚ) := by push_cast; ring
  rw [← h, pyInt_intCast]

theorem dget_dreplace_self (d : List (String × PyVal)) (k : String) (v : PyVal)
    (h : (dget d k).isSome) : dget (dreplace d k v) k = some v := by
  induction d with
  | nil => simp [dget] at h
  | cons hd tl ih =>
    obtain ⟨k1, v1⟩ := hd
    by_cases hk : k1 = k
    · simp [dreplace, dget, hk]
    · simp only [dreplace, dget, hk, if_neg, if_false] at h ⊢
      exact ih h

theorem dget_dreplace_ne (d : List (String × PyVal)) (k' k : String)
    (v : PyVal) (h : k' ≠ k) : dget (dreplace d k' v) k = dget d k := by
  induction d with
  | nil => rfl
  | cons hd tl ih =>
    obtain ⟨k1, v1⟩ := hd
    by_cases hk : k1 = k'
    · simp [dreplace, dget, hk, h, ih]
    · simp [dreplace, dget, hk, ih]

theorem dget_append_of_none (d e : List (String × PyVal)) (k : String)
    (h : dget d k = Option.none) : dget (d ++ e) k = dget e k := by
  induction d with
  | nil => rfl
  | cons hd tl ih =>
    obtain ⟨k1, v1⟩ := hd
    by_cases hk : k1 = k
    · simp [dget, hk] at h
    · simp only [dget, hk, if_false] at h
      simpa [dget, hk] using ih h

theorem dget_append_of_some (d e : List (String × PyVal)) (k : String)
    (v : PyVal) (h : dget d k = some v) : dget (d ++ e) k = some v := by
  induction d with
  | nil => cases h
  | cons hd tl ih =>
    obtain ⟨k1, v1⟩ := hd
    by_cases hk : k1 = k
    · simp only [dget, hk, if_pos] at h
      simpa [dget, hk] using h
    · simp only [dget, hk, if_false] at h
      simpa [dget, hk] using ih h

theorem dget_dset_self (d : List (String × PyVal)) (k : String) (v : PyVal) :
    dget (dset d k v) k = some v := by
  rw [dset]
  split
  · next hsome => exact dget_dreplace_self d k v hsome
  · next hnone =>
    have h0 : dget d k = Option.none := by
      cases hd : dget d k
      · rfl
      · rw [hd] at hnone
        simp at hnone
    rw [dget_append_of_none _ _ _ h0]
    simp [dget]

theorem dget_dset_ne (d : List (String × PyVal)) (k' k : String) (v : PyVal)
    (h : k' ≠ k) : dget (dset d k' v) k = dget d k := by
  rw [dset]
  split
  · exact dget_dreplace_ne d k' k v h
  · cases hd : dget d k
    · rw [dget_append_of_none _ _ _ hd]
      simp [dget, h]
    · exact dget_append_of_some _ _ _ _ hd

theorem dget_derase_self (d : List (String × PyVal)) (k : String) :
    dget (derase d k) k = Option.none := by
  induction d with
  | nil => rfl
  | cons hd tl ih =>
    obtain ⟨k1, v1⟩ := hd
    by_cases hk : k1 = k
    · simpa [derase, hk] using ih
    · simpa [derase, dget, hk] using ih

theorem dget_derase_ne (d : List (String × PyVal)) (k' k : String)
    (h : k' ≠ k) : dget (derase d k') k = dget d k := by
  induction d with
  | nil => rfl
  | cons hd tl ih =>
    obtain ⟨k1, v1⟩ := hd
    by_cases hk : k1 = k'
    · subst hk
      simpa [derase, dget, h, Ne.symm h] using ih
    · by_cases hkk : k1 = k
      · subst hkk
        simp [derase, dget, hk]
      · simpa [derase, dget, hk, hkk] using ih

theorem derase_of_dget_none (d : List (String × PyVal)) (k : String)
    (h : dget d k = Option.none) : derase d k = d := by
  induction d with
  | nil => rfl
  | cons hd tl ih =>
    obtain ⟨k1, v1⟩ := hd
    by_cases hk : k1 = k
    · simp [dget, hk] at h
    · simp only [dget, hk, if_false] at h
      simp [derase, hk, ih h]

theorem splitSlash_ne_nil (s : List Char) : splitSlash s ≠ [] := by
  cases s with
  | nil => simp [splitSlash]
  | cons c cs =>
    simp only [splitSlash]
    split
    · simp
    · split <;> simp

theorem getLast?_filter {α : Type} (p : α → Bool) (l : List α) (a : α)
    (h : l.getLast? = some a) (hp : p a = true) :
    (l.filter p).getLast? = some a := by
  induction l with
  | nil => cases h
  | cons x xs ih =>
    cases xs with
    | nil =>
      obtain rfl : x = a := by simpa using h
      simp [List.filter, hp]
    | cons y ys =>
      rw [List.getLast?_cons_cons] at h
      have htl := ih h
      have hne : (y :: ys).filter p ≠ [] := by
        intro hc
        rw [hc] at htl
        cases htl
      rw [List.filter_cons]
      split
      · obtain ⟨z, zs, hzz⟩ := List.exists_cons_of_ne_nil hne
        rw [hzz] at htl ⊢
        rw [List.getLast?_cons_cons]
        exact htl
      · exact htl

theorem pathName_eq_specFinalSegment (p : String)
    (h1 : specFinalSegment p ≠ []) (h2 : specFinalSegment p ≠ ['.']) :
    pathName p = specFinalSegment p := by
  have hne := splitSlash_ne_nil p.toList
  have hsome : (splitSlash p.toList).getLast?.isSome :=
    List.getLast?_isSome.mpr hne
  obtain ⟨a, ha⟩ := Option.isSome_iff_exists.mp hsome
  have hfs : specFinalSegment p = a := by
    rw [specFinalSegment, ha]
    rfl
  have hp : (fun seg => decide (seg ≠ [] ∧ seg ≠ ['.'])) a = true := by
    refine decide_eq_true ⟨?_, ?_⟩
    · rw [← hfs]; exact h1
    · rw [← hfs]; exact h2
  rw [pathName, pathSegs, getLast?_filter _ _ a ha hp, hfs]
  rfl

/-! ### Shape lemmas for the three control-flow paths of `from_path` -/

theorem from_path_not_truthy (p : String) (dv da : Bool) (dec : String)
    (args : List (String × PyVal)) (env : LoadEnv)
    (h : ¬ ((dget args "short_side_scale").getD PyVal.pyNone).truthy) :
    from_path p dv da dec args env =
      ([IOEvent.readFile p],
       Except.map (fun cls =>
           { videoCls := cls, file := env.fileBytes, videoName := pathName p,
             decodeVideo := dv, decodeAudio := da,
             args := derase args "short_side_scale" })
         (select_video_class dec)) := by
  simp only [from_path]
  rw [if_neg h]

theorem from_path_zero_dim (p : String) (dv da : Bool) (dec : String)
    (args : List (String × PyVal)) (b : ℕ) (w h : ℚ) (s : ℚ)
    (hget : dget args "short_side_scale" = some (PyVal.num s)) (hs : s ≠ 0)
    (hwh : w = 0 ∨ h = 0) :
    from_path p dv da dec args ⟨b, ⟨w, h⟩⟩ =
      ([IOEvent.readFile p, IOEvent.probeDims p],
       Except.error (PyError.valueErrorInvalidVideo p)) := by
  simp only [from_path, hget, Option.getD]
  rw [if_pos (show (PyVal.num s).truthy from hs), if_pos hwh]

theorem from_path_scaled (p : String) (dv da : Bool) (dec : String)
    (args : List (String × PyVal)) (b : ℕ) (w h : ℚ) (s : ℚ)
    (hget : dget args "short_side_scale" = some (PyVal.num s)) (hs : s ≠ 0)
    (hw : w ≠ 0) (hh : h ≠ 0) :
    from_path p dv da dec args ⟨b, ⟨w, h⟩⟩ =
      ([IOEvent.readFile p, IOEvent.probeDims p],
       Except.map (fun cls =>
           { videoCls := cls, file := b, videoName := pathName p,
             decodeVideo := dv, decodeAudio := da,
             args := dset (dset (derase args "short_side_scale") "width"
                 (PyVal.num (pyInt (if w < h then s else s * w / h))))
               "height"
               (PyVal.num (pyInt (if w < h then s * h / w else s))) })
         (select_video_class dec)) := by
  simp only [from_path, hget, Option.getD]
  rw [if_pos (show (PyVal.num s).truthy from hs)]
  rw [if_neg (show ¬(w = 0 ∨ h = 0) from by
    rintro (hz | hz)
    exacts [hw hz, hh hz])]
  by_cases hlt : w < h <;> simp [hlt]

theorem select_video_class_error (dec : String) (e : PyError)
    (h : select_video_class dec = Except.error e) :
    e = PyError.valueErrorDecoder dec := by
  unfold select_video_class DecoderType.ofString at h
  split_ifs at h <;> simp_all

theorem select_video_class_unknown (t : String) (h1 : t ≠ "pyav")
    (h2 : t ≠ "torchvision") (h3 : t ≠ "decord") :
    select_video_class t = Except.error (PyError.valueErrorDecoder t) := by
  unfold select_video_class DecoderType.ofString
  rw [if_neg h1, if_neg h2, if_neg h3]

/-- The args dict the backend constructor received, read off a `from_path`
outcome (empty when the call raised instead of constructing). -/
def outArgs (r : List IOEvent × Except PyError Constructed) :
    List (String × PyVal) :=
  match r.2 with
  | Except.ok c => c.args
  | Except.error _ => []

theorem videoName_of_ok (p : String) (dv da : Bool) (dec : String)
    (args : List (String × PyVal)) (env : LoadEnv) (c : Constructed)
    (hok : (from_path p dv da dec args env).2 = Except.ok c) :
    c.videoName = pathName p := by
  simp only [from_path] at hok
  by_cases ht : ((dget args "short_side_scale").getD PyVal.pyNone).truthy
  · rw [if_pos ht] at hok
    by_cases hz : env.probe.width = 0 ∨ env.probe.height = 0
    · rw [if_pos hz] at hok
      simp at hok
    · rw [if_neg hz] at hok
      cases hv : (dget args "short_side_scale").getD PyVal.pyNone with
      | num s =>
        rw [hv] at hok
        cases hsel : select_video_class dec with
        | error e =>
          rw [hsel] at hok
          simp [Except.map] at hok
        | ok cls =>
          rw [hsel] at hok
          simp only [Except.map] at hok
          injection hok with hc
          rw [← hc]
      | pyNone =>
        rw [hv] at hok
        simp at hok
      | pyBool bb =>
        rw [hv] at hok
        simp at hok
      | str st =>
        rw [hv] at hok
        simp at hok
  · rw [if_neg ht] at hok
    cases hsel : select_video_class dec with
    | error e =>
      rw [hsel] at hok
      simp [Except.map] at hok
    | ok cls =>
      rw [hsel] at hok
      simp only [Except.map] at hok
      injection hok with hc
      rw [← hc]

/-! ### Claim theorems -/

/-- C7: each of the three valid decoder tokens ("pyav", "torchvision",
"decord") makes `select_video_class` return the correctly corresponding
backend class (`EncodedVideoPyAV`, `EncodedVideoTorchVision`,
`EncodedVideoDecord` respectively), and no two of those classes coincide. -/
theorem C7_selector_correct :
    select_video_class "pyav" = Except.ok VideoClass.EncodedVideoPyAV ∧
    select_video_class "torchvision" =
      Except.ok VideoClass.EncodedVideoTorchVision ∧
    select_video_class "decord" = Except.ok VideoClass.EncodedVideoDecord ∧
    VideoClass.EncodedVideoPyAV ≠ VideoClass.EncodedVideoTorchVision ∧
    VideoClass.EncodedVideoPyAV ≠ VideoClass.EncodedVideoDecord ∧
    VideoClass.EncodedVideoTorchVision ≠ VideoClass.EncodedVideoDecord := by
  refine ⟨rfl, rfl, rfl, ?_, ?_, ?_⟩ <;> decide

/-- C9: for every token, `select_video_class` never raises the
`NotImplementedError` of its final `else` branch — that branch is
unreachable — because any token outside the enumerated set already fails
with the `ValueError` of the enum conversion `DecoderType(decoder)` in the
first branch condition. -/
theorem C9_else_unreachable (s : String) :
    (∀ t : String,
      select_video_class s ≠ Except.error (PyError.notImplementedErr t)) ∧
    (s ≠ "pyav" → s ≠ "torchvision" → s ≠ "decord" →
      select_video_class s = Except.error (PyError.valueErrorDecoder s)) := by
  constructor
  · intro t
    unfold select_video_class DecoderType.ofString
    split_ifs <;> simp
  · intro h1 h2 h3
    exact select_video_class_unknown s h1 h2 h3

/-- Witness for C9 at the concrete unknown token "mycodec". -/
theorem C9_witness :
    select_video_class "mycodec" =
      Except.error (PyError.valueErrorDecoder "mycodec") ∧
    select_video_class "mycodec" ≠
      Except.error (PyError.notImplementedErr "mycodec") :=
  ⟨(C9_else_unreachable "mycodec").2 (by decide) (by decide) (by decide),
   (C9_else_unreachable "mycodec").1 "mycodec"⟩

/-- C6: when the caller supplies no `short_side_scale` option, the loader
performs only the byte read (no dimension probe) and forwards the options
dict to the backend constructor completely unmodified. -/
theorem C6_no_scale_passthrough (p : String) (dv da : Bool) (dec : String)
    (args : List (String × PyVal)) (env : LoadEnv)
    (h : dget args "short_side_scale" = Option.none) :
    from_path p dv da dec args env =
      ([IOEvent.readFile p],
       Except.map (fun cls =>
           { videoCls := cls, file := env.fileBytes, videoName := pathName p,
             decodeVideo := dv, decodeAudio := da, args := args })
         (select_video_class dec)) := by
  have hp := from_path_not_truthy p dv da dec args env (by rw [h]; exact not_false)
  rw [hp, derase_of_dget_none args _ h]

/-- Witness for C6 at a concrete call: options pass through untouched and
the trace holds exactly the byte read. -/
theorem C6_witness :
    from_path "folder/clip.mp4" true false "decord"
        [("width", PyVal.num 10)] ⟨7, ⟨0, 0⟩⟩ =
      ([IOEvent.readFile "folder/clip.mp4"],
       Except.ok ⟨VideoClass.EncodedVideoDecord, 7, "clip.mp4".toList,
         true, false, [("width", PyVal.num 10)]⟩) := by
  rw [C6_no_scale_passthrough "folder/clip.mp4" true false "decord"
    [("width", PyVal.num 10)] ⟨7, ⟨0, 0⟩⟩ rfl]
  rfl

/-- C10: a falsy `short_side_scale` value (`0`) suppresses the dimension
probe, the invalid-source check and the scaling — the call succeeds exactly
as without scaling, independent of what the probe would report (here even
for a zero-dimension source) — yet the key is still removed by the `pop`,
so the backend constructor never receives it. -/
theorem C10_falsy_scale_removed (p : String) (dv da : Bool) (dec : String)
    (args : List (String × PyVal)) (env : LoadEnv)
    (h : dget args "short_side_scale" = some (PyVal.num 0)) :
    from_path p dv da dec args env =
      ([IOEvent.readFile p],
       Except.map (fun cls =>
           { videoCls := cls, file := env.fileBytes, videoName := pathName p,
             decodeVideo := dv, decodeAudio := da,
             args := derase args "short_side_scale" })
         (select_video_class dec)) ∧
    dget (derase args "short_side_scale") "short_side_scale" = Option.none := by
  refine ⟨?_, dget_derase_self args _⟩
  exact from_path_not_truthy p dv da dec args env
    (by rw [h]; simp [PyVal.truthy])

/-- Witness for C10: concrete call with `short_side_scale = 0` and a
zero-dimension source succeeds, no probe happens, and the key is gone. -/
theorem C10_witness :
    from_path "v.mp4" true true "pyav"
        [("short_side_scale", PyVal.num 0), ("x", PyVal.num 1)] ⟨3, ⟨0, 0⟩⟩ =
      ([IOEvent.readFile "v.mp4"],
       Except.ok ⟨VideoClass.EncodedVideoPyAV, 3, "v.mp4".toList,
         true, true, [("x", PyVal.num 1)]⟩) := by
  rw [(C10_falsy_scale_removed "v.mp4" true true "pyav"
    [("short_side_scale", PyVal.num 0), ("x", PyVal.num 1)] ⟨3, ⟨0, 0⟩⟩ rfl).1]
  rfl

/-- C1 counterexample: with the unknown decoder token "mycodec2", the call
does fail with the unsupported-backend `ValueError`, but the byte read of
the file is in the performed-I/O trace — file I/O happens before the
failure, contradicting "fails eagerly, before any file I/O occurs". -/
theorem C1_counterexample :
    from_path "v.mp4" true true "mycodec2" [] ⟨0, ⟨0, 0⟩⟩ =
      ([IOEvent.readFile "v.mp4"],
       Except.error (PyError.valueErrorDecoder "mycodec2")) ∧
    IOEvent.readFile "v.mp4" ∈
      (from_path "v.mp4" true true "mycodec2" [] ⟨0, ⟨0, 0⟩⟩).1 :=
  ⟨rfl, List.Mem.head _⟩

/-- C1 (amended): for every decoder token outside the enumerated set, and
any call in which the popped `short_side_scale` is not truthy, the loader
fails with the unsupported-backend `ValueError` from the enum conversion —
but only after the file has been read: the performed-I/O trace at the
failure holds the byte read. -/
theorem C1_unsupported_after_read (p : String) (dv da : Bool) (t : String)
    (args : List (String × PyVal)) (env : LoadEnv)
    (hns : ¬ ((dget args "short_side_scale").getD PyVal.pyNone).truthy)
    (h1 : t ≠ "pyav") (h2 : t ≠ "torchvision") (h3 : t ≠ "decord") :
    from_path p dv da t args env =
      ([IOEvent.readFile p],
       Except.error (PyError.valueErrorDecoder t)) := by
  rw [from_path_not_truthy p dv da t args env hns,
    select_video_class_unknown t h1 h2 h3]
  rfl

/-- Witness for C1's amended theorem at a concrete call. -/
theorem C1_witness :
    from_path "clip.avi" false true "mycodec3"
        [("a", PyVal.num 2)] ⟨1, ⟨5, 5⟩⟩ =
      ([IOEvent.readFile "clip.avi"],
       Except.error (PyError.valueErrorDecoder "mycodec3")) :=
  C1_unsupported_after_read "clip.avi" false true "mycodec3"
    [("a", PyVal.num 2)] ⟨1, ⟨5, 5⟩⟩ (by decide) (by decide) (by decide)
    (by decide)

theorem outArgs_of_ok (r : List IOEvent × Except PyError Constructed)
    (c : Constructed) (h : r.2 = Except.ok c) : outArgs r = c.args := by
  unfold outArgs
  rw [h]

/-- C3 (amended): when a truthy numeric short-side scale is requested, the
invalid-source `ValueError` is raised exactly when a probed dimension equals
zero; a negative probed dimension is not rejected (the source tests
`width == 0 or height == 0`, not non-positivity). -/
theorem C3_invalid_source_iff_zero (p : String) (dv da : Bool) (dec : String)
    (args : List (String × PyVal)) (b : ℕ) (w h : ℚ) (s : ℚ)
    (hget : dget args "short_side_scale" = some (PyVal.num s)) (hs : s ≠ 0) :
    (from_path p dv da dec args ⟨b, ⟨w, h⟩⟩).2 =
        Except.error (PyError.valueErrorInvalidVideo p) ↔ (w = 0 ∨ h = 0) := by
  constructor
  · intro hres
    by_contra hne
    push_neg at hne
    rw [from_path_scaled p dv da dec args b w h s hget hs hne.1 hne.2] at hres
    cases hsel : select_video_class dec with
    | ok cls =>
      rw [hsel] at hres
      simp [Except.map] at hres
    | error e =>
      rw [select_video_class_error dec e hsel] at hsel
      rw [hsel] at hres
      simp [Except.map] at hres
  · intro hz
    rw [from_path_zero_dim p dv da dec args b w h s hget hs hz]

/-- Witness for C3's amended theorem: probed width 0 raises the
invalid-source error. -/
theorem C3_witness :
    (from_path "v0.mp4" true true "pyav"
        [("short_side_scale", PyVal.num 320)] ⟨0, ⟨0, 5⟩⟩).2 =
      Except.error (PyError.valueErrorInvalidVideo "v0.mp4") :=
  (C3_invalid_source_iff_zero "v0.mp4" true true "pyav"
    [("short_side_scale", PyVal.num 320)] 0 0 5 320 rfl
    (by norm_num)).mpr (Or.inl rfl)

/-- C3 counterexample: a negative probed width (−1 ≤ 0) with a requested
scale does NOT raise the invalid-source error — the call constructs a
backend instance — refuting "for every probed width ≤ 0 the error is
raised". -/
theorem C3_counterexample :
    (-1 : ℚ) ≤ 0 ∧
    (from_path "neg.mp4" true true "pyav"
        [("short_side_scale", PyVal.num 320)] ⟨0, ⟨-1, 100⟩⟩).2 ≠
      Except.error (PyError.valueErrorInvalidVideo "neg.mp4") := by
  refine ⟨by norm_num, ?_⟩
  rw [from_path_scaled "neg.mp4" true true "pyav"
    [("short_side_scale", PyVal.num 320)] 0 (-1) 100 320 rfl (by norm_num)
    (by norm_num) (by norm_num)]
  intro hres
  rw [show select_video_class "pyav" = Except.ok VideoClass.EncodedVideoPyAV
    from rfl] at hres
  simp [Except.map] at hres

/-- C4: with positive probed dimensions and a positive integer short-side
scale, the computed pair preserves the aspect ratio exactly as claimed: the
shorter native dimension is set to the target itself, the other dimension
becomes the native value scaled by the same ratio rounded toward zero
(equivalently, its floor, the value being nonnegative), and the tie
`width = height` is handled by the `height ≤ width` branch, which sets
height to the target and scales width by `target / height`. -/
theorem C4_aspect_ratio (p : String) (dv da : Bool) (dec : String)
    (args : List (String × PyVal)) (b : ℕ) (w hgt : ℚ) (s : ℕ)
    (hget : dget args "short_side_scale" = some (PyVal.num (s : ℚ)))
    (hs : 0 < s) (hw : 0 < w) (hh : 0 < hgt) (c : Constructed)
    (hok : (from_path p dv da dec args ⟨b, ⟨w, hgt⟩⟩).2 = Except.ok c) :
    (w < hgt →
      dget c.args "width" = some (PyVal.num (s : ℚ)) ∧
      dget c.args "height" =
        some (PyVal.num ((⌊(s : ℚ) * hgt / w⌋ : ℤ) : ℚ))) ∧
    (hgt ≤ w →
      dget c.args "width" =
        some (PyVal.num ((⌊(s : ℚ) * w / hgt⌋ : ℤ) : ℚ)) ∧
      dget c.args "height" = some (PyVal.num (s : ℚ))) := by
  have hsq : (s : ℚ) ≠ 0 := Nat.cast_ne_zero.mpr hs.ne'
  rw [from_path_scaled p dv da dec args b w hgt (s : ℚ) hget hsq hw.ne'
    hh.ne'] at hok
  cases hsel : select_video_class dec with
  | error e =>
    rw [hsel] at hok
    simp [Except.map] at hok
  | ok cls =>
    rw [hsel] at hok
    simp only [Except.map] at hok
    injection hok with hc
    have hargs : c.args =
        dset (dset (derase args "short_side_scale") "width"
            (PyVal.num (pyInt (if w < hgt then (s : ℚ)
              else (s : ℚ) * w / hgt))))
          "height"
          (PyVal.num (pyInt (if w < hgt then (s : ℚ) * hgt / w
            else (s : ℚ)))) := by
      rw [← hc]
    constructor
    · intro hlt
      rw [hargs, if_pos hlt, if_pos hlt]
      constructor
      · rw [dget_dset_ne _ _ _ _ (by decide), dget_dset_self, pyInt_natCast]
        norm_cast
      · rw [dget_dset_self,
          pyInt_of_nonneg _ (by positivity)]
    · intro hle
      rw [hargs, if_neg (not_lt.mpr hle), if_neg (not_lt.mpr hle)]
      constructor
      · rw [dget_dset_ne _ _ _ _ (by decide), dget_dset_self,
          pyInt_of_nonneg _ (by positivity)]
      · rw [dget_dset_self, pyInt_natCast]
        norm_cast

/-- Witness for C4 at probe 640×480 and scale 320: height (the shorter
side) becomes exactly 320 and width becomes ⌊320·640/480⌋ = 426. -/
theorem C4_witness :
    dget (outArgs (from_path "v.mp4" true true "pyav"
        [("short_side_scale", PyVal.num 320)] ⟨0, ⟨640, 480⟩⟩)) "width" =
      some (PyVal.num 426) ∧
    dget (outArgs (from_path "v.mp4" true true "pyav"
        [("short_side_scale", PyVal.num 320)] ⟨0, ⟨640, 480⟩⟩)) "height" =
      some (PyVal.num 320) := by
  have hok : (from_path "v.mp4" true true "pyav"
      [("short_side_scale", PyVal.num 320)] ⟨0, ⟨640, 480⟩⟩).2 =
      Except.ok
        { videoCls := VideoClass.EncodedVideoPyAV, file := 0,
          videoName := pathName "v.mp4", decodeVideo := true,
          decodeAudio := true,
          args := dset (dset (derase [("short_side_scale", PyVal.num 320)]
              "short_side_scale") "width"
              (PyVal.num (pyInt (if (640 : ℚ) < 480 then 320
                else 320 * 640 / 480))))
            "height"
            (PyVal.num (pyInt (if (640 : ℚ) < 480 then 320 * 480 / 640
              else 320))) } := by
    rw [from_path_scaled "v.mp4" true true "pyav"
      [("short_side_scale", PyVal.num 320)] 0 640 480 320 rfl (by norm_num)
      (by norm_num) (by norm_num)]
    rw [show select_video_class "pyav" = Except.ok VideoClass.EncodedVideoPyAV
      from rfl]
    rfl
  have h4 := (C4_aspect_ratio "v.mp4" true true "pyav"
    [("short_side_scale", PyVal.num 320)] 0 640 480 320
    (by norm_num [dget]) (by norm_num) (by norm_num) (by norm_num) _ hok).2
    (by norm_num)
  rw [outArgs_of_ok _ _ hok]
  refine ⟨?_, ?_⟩
  · rw [h4.1]
    have : ⌊((320 : ℕ) : ℚ) * 640 / 480⌋ = (426 : ℤ) := by
      rw [Int.floor_eq_iff]
      constructor <;> norm_num
    rw [this]
    norm_num
  · rw [h4.2]
    norm_num

theorem args_1920 :
    outArgs (from_path "v.mp4" true true "pyav"
        [("short_side_scale", PyVal.num 320)] ⟨0, ⟨1920, 1080⟩⟩) =
      [("width", PyVal.num 568), ("height", PyVal.num 320)] := by
  have hok : (from_path "v.mp4" true true "pyav"
      [("short_side_scale", PyVal.num 320)] ⟨0, ⟨1920, 1080⟩⟩).2 =
      Except.ok
        { videoCls := VideoClass.EncodedVideoPyAV, file := 0,
          videoName := pathName "v.mp4", decodeVideo := true,
          decodeAudio := true,
          args := dset (dset (derase [("short_side_scale", PyVal.num 320)]
              "short_side_scale") "width"
              (PyVal.num (pyInt (if (1920 : ℚ) < 1080 then 320
                else 320 * 1920 / 1080))))
            "height"
            (PyVal.num (pyInt (if (1920 : ℚ) < 1080 then 320 * 1080 / 1920
              else 320))) } := by
    rw [from_path_scaled "v.mp4" true true "pyav"
      [("short_side_scale", PyVal.num 320)] 0 1920 1080 320 rfl (by norm_num)
      (by norm_num) (by norm_num)]
    rw [show select_video_class "pyav" = Except.ok VideoClass.EncodedVideoPyAV
      from rfl]
    rfl
  rw [outArgs_of_ok _ _ hok]
  rw [if_neg (by norm_num : ¬((1920 : ℚ) < 1080)),
    if_neg (by norm_num : ¬((1920 : ℚ) < 1080))]
  have h568 : pyInt ((320 : ℚ) * 1920 / 1080) = 568 := by
    rw [pyInt_of_nonneg _ (by norm_num), Int.floor_eq_iff]
    constructor <;> norm_num
  have h320 : pyInt (320 : ℚ) = 320 := by
    rw [show (320 : ℚ) = ((320 : ℤ) : ℚ) from by norm_num, pyInt_intCast]
  rw [h568, h320]
  push_cast
  rfl

theorem args_1080 :
    outArgs (from_path "v.mp4" true true "pyav"
        [("short_side_scale", PyVal.num 320)] ⟨0, ⟨1080, 1920⟩⟩) =
      [("width", PyVal.num 320), ("height", PyVal.num 568)] := by
  have hok : (from_path "v.mp4" true true "pyav"
      [("short_side_scale", PyVal.num 320)] ⟨0, ⟨1080, 1920⟩⟩).2 =
      Except.ok
        { videoCls := VideoClass.EncodedVideoPyAV, file := 0,
          videoName := pathName "v.mp4", decodeVideo := true,
          decodeAudio := true,
          args := dset (dset (derase [("short_side_scale", PyVal.num 320)]
              "short_side_scale") "width"
              (PyVal.num (pyInt (if (1080 : ℚ) < 1920 then 320
                else 320 * 1080 / 1920))))
            "height"
            (PyVal.num (pyInt (if (1080 : ℚ) < 1920 then 320 * 1920 / 1080
              else 320))) } := by
    rw [from_path_scaled "v.mp4" true true "pyav"
      [("short_side_scale", PyVal.num 320)] 0 1080 1920 320 rfl (by norm_num)
      (by norm_num) (by norm_num)]
    rw [show select_video_class "pyav" = Except.ok VideoClass.EncodedVideoPyAV
      from rfl]
    rfl
  rw [outArgs_of_ok _ _ hok]
  rw [if_pos (by norm_num : (1080 : ℚ) < 1920),
    if_pos (by norm_num : (1080 : ℚ) < 1920)]
  have h568 : pyInt ((320 : ℚ) * 1920 / 1080) = 568 := by
    rw [pyInt_of_nonneg _ (by norm_num), Int.floor_eq_iff]
    constructor <;> norm_num
  have h320 : pyInt (320 : ℚ) = 320 := by
    rw [show (320 : ℚ) = ((320 : ℤ) : ℚ) from by norm_num, pyInt_intCast]
  rw [h568, h320]
  push_cast
  rfl

/-- C2 counterexample: for a 1920×1080 source and short-side scale 320, the
code computes width 568 and height 320 — it applies the target to the
*shorter* dimension — not width 320 / height 180 as the claim's example
states. -/
theorem C2_counterexample :
    dget (outArgs (from_path "v.mp4" true true "pyav"
        [("short_side_scale", PyVal.num 320)] ⟨0, ⟨1920, 1080⟩⟩)) "width" =
      some (PyVal.num 568) ∧
    dget (outArgs (from_path "v.mp4" true true "pyav"
        [("short_side_scale", PyVal.num 320)] ⟨0, ⟨1920, 1080⟩⟩)) "height" =
      some (PyVal.num 320) ∧
    PyVal.num (568 : ℚ) ≠ PyVal.num 320 ∧
    PyVal.num (320 : ℚ) ≠ PyVal.num 180 := by
  refine ⟨?_, ?_, ?_, ?_⟩
  · rw [args_1920]
    rfl
  · rw [args_1920]
    rfl
  · intro hcon
    injection hcon with hq
    norm_num at hq
  · intro hcon
    injection hcon with hq
    norm_num at hq

/-- C2 (amended): for a 1920×1080 source with short-side scale 320 the
loader forwards width 568 and height 320, and for a 1080×1920 source it
forwards width 320 and height 568 (the target is applied to the shorter
dimension, the longer one is scaled proportionally and truncated). -/
theorem C2_scale_examples :
    dget (outArgs (from_path "v.mp4" true true "pyav"
        [("short_side_scale", PyVal.num 320)] ⟨0, ⟨1920, 1080⟩⟩)) "width" =
      some (PyVal.num 568) ∧
    dget (outArgs (from_path "v.mp4" true true "pyav"
        [("short_side_scale", PyVal.num 320)] ⟨0, ⟨1920, 1080⟩⟩)) "height" =
      some (PyVal.num 320) ∧
    dget (outArgs (from_path "v.mp4" true true "pyav"
        [("short_side_scale", PyVal.num 320)] ⟨0, ⟨1080, 1920⟩⟩)) "width" =
      some (PyVal.num 320) ∧
    dget (outArgs (from_path "v.mp4" true true "pyav"
        [("short_side_scale", PyVal.num 320)] ⟨0, ⟨1080, 1920⟩⟩)) "height" =
      some (PyVal.num 568) := by
  refine ⟨?_, ?_, ?_, ?_⟩
  · rw [args_1920]
    rfl
  · rw [args_1920]
    rfl
  · rw [args_1080]
    rfl
  · rw [args_1080]
    rfl

/-- C5 (amended): when short-side scaling succeeds, the computed width and
height are stored under the keys "width" and "height", overwriting any
caller-supplied values there; every other caller-supplied entry except the
consumed `short_side_scale` option is forwarded unchanged, and the
`short_side_scale` key itself is removed and never reaches the backend. -/
theorem C5_width_height_overwrite (p : String) (dv da : Bool) (dec : String)
    (args : List (String × PyVal)) (b : ℕ) (w h : ℚ) (s : ℚ)
    (hget : dget args "short_side_scale" = some (PyVal.num s)) (hs : s ≠ 0)
    (hw : w ≠ 0) (hh : h ≠ 0) (c : Constructed)
    (hok : (from_path p dv da dec args ⟨b, ⟨w, h⟩⟩).2 = Except.ok c) :
    dget c.args "width" =
      some (PyVal.num (pyInt (if w < h then s else s * w / h))) ∧
    dget c.args "height" =
      some (PyVal.num (pyInt (if w < h then s * h / w else s))) ∧
    (∀ k, k ≠ "width" → k ≠ "height" → k ≠ "short_side_scale" →
      dget c.args k = dget args k) ∧
    dget c.args "short_side_scale" = Option.none := by
  rw [from_path_scaled p dv da dec args b w h s hget hs hw hh] at hok
  cases hsel : select_video_class dec with
  | error e =>
    rw [hsel] at hok
    simp [Except.map] at hok
  | ok cls =>
    rw [hsel] at hok
    simp only [Except.map] at hok
    injection hok with hc
    have hargs : c.args =
        dset (dset (derase args "short_side_scale") "width"
            (PyVal.num (pyInt (if w < h then s else s * w / h))))
          "height" (PyVal.num (pyInt (if w < h then s * h / w else s))) := by
      rw [← hc]
    refine ⟨?_, ?_, ?_, ?_⟩
    · rw [hargs, dget_dset_ne _ _ _ _ (by decide), dget_dset_self]
    · rw [hargs, dget_dset_self]
    · intro k hk1 hk2 hk3
      rw [hargs, dget_dset_ne _ _ _ _ (Ne.symm hk2),
        dget_dset_ne _ _ _ _ (Ne.symm hk1), dget_derase_ne _ _ _ (Ne.symm hk3)]
    · rw [hargs, dget_dset_ne _ _ _ _ (by decide),
        dget_dset_ne _ _ _ _ (by decide), dget_derase_self]

/-- Witness for C5's amended theorem: an unrelated caller entry "foo" is
forwarded unchanged through a successful scaling call. -/
theorem C5_witness :
    dget (outArgs (from_path "sq.mp4" true true "pyav"
        [("short_side_scale", PyVal.num 320), ("foo", PyVal.num 7)]
        ⟨0, ⟨100, 100⟩⟩)) "foo" = some (PyVal.num 7) := by
  have hok : (from_path "sq.mp4" true true "pyav"
      [("short_side_scale", PyVal.num 320), ("foo", PyVal.num 7)]
      ⟨0, ⟨100, 100⟩⟩).2 =
      Except.ok
        { videoCls := VideoClass.EncodedVideoPyAV, file := 0,
          videoName := pathName "sq.mp4", decodeVideo := true,
          decodeAudio := true,
          args := dset (dset (derase [("short_side_scale", PyVal.num 320),
              ("foo", PyVal.num 7)] "short_side_scale") "width"
              (PyVal.num (pyInt (if (100 : ℚ) < 100 then 320
                else 320 * 100 / 100))))
            "height"
            (PyVal.num (pyInt (if (100 : ℚ) < 100 then 320 * 100 / 100
              else 320))) } := by
    rw [from_path_scaled "sq.mp4" true true "pyav"
      [("short_side_scale", PyVal.num 320), ("foo", PyVal.num 7)] 0 100 100
      320 rfl (by norm_num) (by norm_num) (by norm_num)]
    rw [show select_video_class "pyav" = Except.ok VideoClass.EncodedVideoPyAV
      from rfl]
    rfl
  have h5 := C5_width_height_overwrite "sq.mp4" true true "pyav"
    [("short_side_scale", PyVal.num 320), ("foo", PyVal.num 7)] 0 100 100 320
    rfl (by norm_num) (by norm_num) (by norm_num) _ hok
  rw [outArgs_of_ok _ _ hok]
  rw [h5.2.2.1 "foo" (by decide) (by decide) (by decide)]
  rfl

/-- C5 counterexample: the caller-supplied `short_side_scale` entry — an
option entry under neither the "width" nor the "height" key — is *not*
forwarded unchanged: it is absent from the options the backend receives. -/
theorem C5_counterexample :
    dget [("short_side_scale", PyVal.num 320), ("foo", PyVal.num 7)]
      "short_side_scale" = some (PyVal.num 320) ∧
    ("short_side_scale" : String) ≠ "width" ∧
    ("short_side_scale" : String) ≠ "height" ∧
    dget (outArgs (from_path "sq.mp4" true true "pyav"
        [("short_side_scale", PyVal.num 320), ("foo", PyVal.num 7)]
        ⟨0, ⟨100, 100⟩⟩)) "short_side_scale" = Option.none := by
  refine ⟨rfl, by decide, by decide, ?_⟩
  rw [from_path_scaled "sq.mp4" true true "pyav"
    [("short_side_scale", PyVal.num 320), ("foo", PyVal.num 7)] 0 100 100
    320 rfl (by norm_num) (by norm_num) (by norm_num)]
  rw [show select_video_class "pyav" = Except.ok VideoClass.EncodedVideoPyAV
    from rfl]
  simp only [Except.map, outArgs]
  rw [dget_dset_ne _ _ _ _ (by decide), dget_dset_ne _ _ _ _ (by decide),
    dget_derase_self]

/-- C8 (amended): whenever a call constructs a backend instance and the
input path's final `/`-separated segment is nonempty and not ".", the
display name the backend receives is exactly that final segment (directory
components stripped). -/
theorem C8_video_name (p : String) (dv da : Bool) (dec : String)
    (args : List (String × PyVal)) (env : LoadEnv) (c : Constructed)
    (hok : (from_path p dv da dec args env).2 = Except.ok c)
    (h1 : specFinalSegment p ≠ []) (h2 : specFinalSegment p ≠ ['.']) :
    c.videoName = specFinalSegment p := by
  rw [videoName_of_ok p dv da dec args env c hok,
    pathName_eq_specFinalSegment p h1 h2]

/-- Witness for C8's amended theorem at the path "dir/clip.mp4". -/
theorem C8_witness :
    (⟨VideoClass.EncodedVideoPyAV, 0, "clip.mp4".toList, true, true, []⟩ :
        Constructed).videoName = specFinalSegment "dir/clip.mp4" :=
  C8_video_name "dir/clip.mp4" true true "pyav" [] ⟨0, ⟨0, 0⟩⟩
    ⟨VideoClass.EncodedVideoPyAV, 0, "clip.mp4".toList, true, true, []⟩ rfl
    (by decide) (by decide)

/-- C8 counterexample: for the trailing-slash path "a/b/", everything after
the last `/` is empty — stripping all directory components leaves nothing —
yet the display name passed to the backend is "b". -/
theorem C8_counterexample :
    (from_path "a/b/" true true "pyav" [] ⟨0, ⟨0, 0⟩⟩).2 =
      Except.ok ⟨VideoClass.EncodedVideoPyAV, 0, ['b'], true, true, []⟩ ∧
    specFinalSegment "a/b/" = [] ∧ (['b'] : List Char) ≠ [] := by
  refine ⟨rfl, by decide, by decide⟩
